import Mathlib

/-!
Verification of the fusion aggregation / classification engine of
`fusion_report/generate_report.py`.

Python strings are embedded as `List Char` (`PyStr`); the reference
database rows of `TCGA_ChiTaRS_combined_fusion_information_on_hg19`
are embedded as `GeneRef` records; `generate_report`'s classification
loop is embedded as an explicit state-passing recursion that also
records the observable side effects (progress-bar calls, reference
database queries, in-memory membership tests, pages added to the
report object) so that claims about them can be stated.
-/

namespace FusionReport

/-- Embedding of a Python `str`. -/
abbrev PyStr := List Char

/-- The separator `"--"` used by `fusion.split('--')` and by the SQL
concatenation `h_gene || "--" || t_gene`. -/
def DASH_SEP : PyStr := ['-', '-']

/-- `h_gene || "--" || t_gene`: the canonical serialized identity built by the
`SELECT DISTINCT (h_gene || "--" || t_gene)` query in `generate_report`. -/
def fusionPairString (h_gene t_gene : PyStr) : PyStr := h_gene ++ DASH_SEP ++ t_gene

/-- One row of the reference table
`TCGA_ChiTaRS_combined_fusion_information_on_hg19` (the reference store). -/
structure GeneRef where
  h_gene : PyStr
  t_gene : PyStr
deriving DecidableEq

/-- The list `db_fusions` computed in `generate_report` (lines 243-247):
the serialized identities of all reference rows, deduplicated by
`SELECT DISTINCT`. -/
def db_fusions (refRows : List GeneRef) : List PyStr :=
  (refRows.map fun r => fusionPairString r.h_gene r.t_gene).dedup

/-- Embedding of Python's `s.split('--')`: leftmost, non-overlapping
splitting on the two-character separator. -/
def splitDD : List Char → List (List Char)
  | [] => [[]]
  | [c] => [[c]]
  | c1 :: c2 :: rest =>
    if c1 = '-' ∧ c2 = '-' then
      [] :: splitDD rest
    else
      match splitDD (c2 :: rest) with
      | [] => [[c1]]
      | p :: ps => (c1 :: p) :: ps

/-- Number of leftmost, non-overlapping occurrences of the separator `"--"`
in a string (the notion of "number of `--` separators" in an identity). -/
def countDD : List Char → Nat
  | [] => 0
  | [_] => 0
  | c1 :: c2 :: rest =>
    if c1 = '-' ∧ c2 = '-' then countDD rest + 1
    else countDD (c2 :: rest)

/-- The part of the `<fusion>.html` page built by `generate_fusion_page`
that the claims are about: the page title (the fusion identity) and
`fusion_pair = fusion.split('--')`, the parameter list bound to the
`h_gene = ? AND t_gene = ?` placeholders of each per-fusion query. -/
structure FusionPage where
  title : PyStr
  fusion_pair : List PyStr
deriving DecidableEq

/-- Embedding of `generate_fusion_page` (lines 106-226): the page is titled
by the fusion identity and all its data-base sections are parameterized by
`fusion_pair = fusion.split('--')`. -/
def generate_fusion_page (fusion : PyStr) : FusionPage :=
  { title := fusion, fusion_pair := splitDD fusion }

/-- `TOOL_DETECTION_CUTOFF = 2` (line 15): minimum number of tools that have
to detect a fusion, used as a filter in the dashboard. -/
def TOOL_DETECTION_CUTOFF : Int := 2

/-- Embedding of the argparse handling of `-t, --tool_num` in `main`
(lines 319-324): when the argument is absent the value defaults to
`TOOL_DETECTION_CUTOFF`. -/
def parse_tool_num (arg : Option Int) : Int := arg.getD TOOL_DETECTION_CUTOFF

/-- Maximum detection count observed across all fusions (0 when the fusion
list is empty). -/
def max_observed_count (fusions : List PyStr) (counts : PyStr → Nat) : Nat :=
  fusions.foldr (fun f m => max (counts f) m) 0

/-- Modelled from the spec: `create_fusions_table` lives in
`helpers/core.py`, which is not among the sources; per spec §4.3
(`filter_by_tool_count`) it keeps the fusion identities detected by at
least `tool_num` tools, and when `tool_num` exceeds the maximum observed
detection count it degrades to no filtering, returning the unfiltered
identity list. The `known_fusions` argument only affects table display,
not the filtering. -/
def create_fusions_table (fusions : List PyStr) (counts : PyStr → Nat)
    (known_fusions : List PyStr) (tool_num : Int) : List PyStr :=
  if (max_observed_count fusions counts : Int) < tool_num then fusions
  else fusions.filter fun f => decide (tool_num ≤ (counts f : Int))

/-- The part of the `index.html` page built by `generate_index`
(lines 33-104) that the claims are about: the page variables
`fusions_sum` and `known_fusion_sum`, the `tool_num` value interpolated
into the fusion-list section, and the fusion table data built by
`create_fusions_table(parser.get_fusions(), ..., known_fusions,
params.tool_num)`. -/
structure IndexPage where
  fusions_sum : Nat
  known_fusion_sum : Nat
  tool_num : Int
  fusions_table : List PyStr
deriving DecidableEq

/-- Embedding of `generate_index`. -/
def generate_index (fusions : List PyStr) (counts : PyStr → Nat)
    (known_fusions unknown_fusions : List PyStr) (tool_num : Int) : IndexPage :=
  { fusions_sum := unknown_fusions.length + known_fusions.length,
    known_fusion_sum := known_fusions.length,
    tool_num := tool_num,
    fusions_table := create_fusions_table fusions counts known_fusions tool_num }

/-- A page added to the `Report` object: either a per-fusion page or the
index page. -/
inductive RPage where
  | fusion : FusionPage → RPage
  | index : IndexPage → RPage
deriving DecidableEq

/-- One call `print_progress_bar(current, total, 50)`. -/
structure ProgressCall where
  current : Nat
  total : Nat
  width : Nat
deriving DecidableEq

/-- State threaded through the classification loop of `generate_report`
(lines 251-265): the two classification lists, the pages added to the
report so far, the progress-bar calls made so far, and the number of
`fusion not in db_fusions` membership tests evaluated so far. -/
structure LoopState where
  known_fusions : List PyStr
  unknown_fusions : List PyStr
  pages : List RPage
  progress : List ProgressCall
  membership_tests : Nat
deriving DecidableEq

/-- The classification loop of `generate_report` (lines 251-265):
`for i, fusion in enumerate(fusions)`, appending to `unknown_fusions` and
reporting progress when `fusion not in db_fusions`, otherwise appending to
`known_fusions`, adding the generated fusion page to the report and
reporting progress. -/
def report_loop (dbf : List PyStr) (total : Nat) : Nat → List PyStr → LoopState → LoopState
  | _, [], st => st
  | i, fusion :: rest, st =>
    if fusion ∉ dbf then
      report_loop dbf total (i + 1) rest
        { st with
          unknown_fusions := st.unknown_fusions ++ [fusion],
          progress := st.progress ++ [⟨i + 1, total, 50⟩],
          membership_tests := st.membership_tests + 1 }
    else
      report_loop dbf total (i + 1) rest
        { st with
          known_fusions := st.known_fusions ++ [fusion],
          pages := st.pages ++ [RPage.fusion (generate_fusion_page fusion)],
          progress := st.progress ++ [⟨i + 1, total, 50⟩],
          membership_tests := st.membership_tests + 1 }

deriving instance DecidableEq for Except

/-- Observable outcome of one run of `generate_report`: the classification
lists, the pages added to the report, the progress-bar call trace, the
number of in-memory membership tests, the number of queries issued against
the reference store, and whether the run completed or propagated an
exception. -/
structure RunTrace where
  known_fusions : List PyStr
  unknown_fusions : List PyStr
  pages : List RPage
  progress : List ProgressCall
  membership_tests : Nat
  ref_lookup_calls : Nat
  outcome : Except PyStr Unit
deriving DecidableEq

/-- Embedding of `generate_report` (lines 228-269). `refQuery` is the result
of the single reference-store query `db.select('SELECT DISTINCT (h_gene ||
"--" || t_gene) ...')` issued before the loop: `.error e` embeds the query
raising. On error nothing after the query runs (the exception propagates:
`known_fusions`/`unknown_fusions` stay as initialized on lines 237-238, no
page is added and no index page is generated); on success the loop runs and
the index page is added after it. -/
def generate_report (refQuery : Except PyStr (List GeneRef)) (fusions : List PyStr)
    (counts : PyStr → Nat) (tool_num : Int) : RunTrace :=
  match refQuery with
  | .error e =>
    { known_fusions := [], unknown_fusions := [], pages := [], progress := [],
      membership_tests := 0, ref_lookup_calls := 1, outcome := .error e }
  | .ok refRows =>
    let dbf := db_fusions refRows
    let st0 : LoopState :=
      { known_fusions := [], unknown_fusions := [], pages := [],
        progress := [⟨0, fusions.length, 50⟩], membership_tests := 0 }
    let st := report_loop dbf fusions.length 0 fusions st0
    { known_fusions := st.known_fusions,
      unknown_fusions := st.unknown_fusions,
      pages := st.pages ++
        [RPage.index (generate_index fusions counts st.known_fusions st.unknown_fusions tool_num)],
      progress := st.progress,
      membership_tests := st.membership_tests,
      ref_lookup_calls := 1,
      outcome := .ok () }

/-- State of the progress-free variant of the classification loop. -/
structure NPState where
  known_fusions : List PyStr
  unknown_fusions : List PyStr
  pages : List RPage
deriving DecidableEq

/-- The classification loop with progress reporting removed (spec §4.4:
progress reporting is purely observational, so this variant keeps only the
classification and page generation of lines 251-265). -/
def report_loop_noprogress (dbf : List PyStr) : List PyStr → NPState → NPState
  | [], st => st
  | fusion :: rest, st =>
    if fusion ∉ dbf then
      report_loop_noprogress dbf rest
        { st with unknown_fusions := st.unknown_fusions ++ [fusion] }
    else
      report_loop_noprogress dbf rest
        { st with
          known_fusions := st.known_fusions ++ [fusion],
          pages := st.pages ++ [RPage.fusion (generate_fusion_page fusion)] }

/-- `generate_report` with progress reporting removed: identical to
`generate_report` except that no `print_progress_bar` call is made. -/
def generate_report_noprogress (refQuery : Except PyStr (List GeneRef))
    (fusions : List PyStr) (counts : PyStr → Nat) (tool_num : Int) : NPState :=
  match refQuery with
  | .error _ => { known_fusions := [], unknown_fusions := [], pages := [] }
  | .ok refRows =>
    let dbf := db_fusions refRows
    let st := report_loop_noprogress dbf fusions
      { known_fusions := [], unknown_fusions := [], pages := [] }
    { known_fusions := st.known_fusions,
      unknown_fusions := st.unknown_fusions,
      pages := st.pages ++
        [RPage.index (generate_index fusions counts st.known_fusions st.unknown_fusions tool_num)] }

/-- Two-step structural induction on character lists, matching the recursion
pattern of `splitDD` and `countDD`. -/
def twoStepInduction {P : List Char → Prop} (h0 : P []) (h1 : ∀ c, P [c])
    (h2 : ∀ c1 c2 rest, P rest → P (c2 :: rest) → P (c1 :: c2 :: rest)) :
    ∀ s, P s
  | [] => h0
  | [c] => h1 c
  | c1 :: c2 :: rest =>
    h2 c1 c2 rest (twoStepInduction h0 h1 h2 rest) (twoStepInduction h0 h1 h2 (c2 :: rest))

/-! ### Characterization lemmas for the classification loop -/

theorem report_loop_known_eq (dbf : List PyStr) (total : Nat) :
    ∀ (fs : List PyStr) (i : Nat) (st : LoopState),
      (report_loop dbf total i fs st).known_fusions =
        st.known_fusions ++ fs.filter (fun f => decide (f ∈ dbf)) := by
  intro fs
  induction fs with
  | nil => intro i st; simp [report_loop]
  | cons f rest ih =>
    intro i st
    by_cases h : f ∈ dbf
    · simp [report_loop, h, ih, List.filter_cons]
    · simp [report_loop, h, ih, List.filter_cons]

theorem report_loop_unknown_eq (dbf : List PyStr) (total : Nat) :
    ∀ (fs : List PyStr) (i : Nat) (st : LoopState),
      (report_loop dbf total i fs st).unknown_fusions =
        st.unknown_fusions ++ fs.filter (fun f => !decide (f ∈ dbf)) := by
  intro fs
  induction fs with
  | nil => intro i st; simp [report_loop]
  | cons f rest ih =>
    intro i st
    by_cases h : f ∈ dbf
    · simp [report_loop, h, ih, List.filter_cons]
    · simp [report_loop, h, ih, List.filter_cons]

theorem report_loop_pages_eq (dbf : List PyStr) (total : Nat) :
    ∀ (fs : List PyStr) (i : Nat) (st : LoopState),
      (report_loop dbf total i fs st).pages =
        st.pages ++ (fs.filter (fun f => decide (f ∈ dbf))).map
          (fun f => RPage.fusion (generate_fusion_page f)) := by
  intro fs
  induction fs with
  | nil => intro i st; simp [report_loop]
  | cons f rest ih =>
    intro i st
    by_cases h : f ∈ dbf
    · simp [report_loop, h, ih, List.filter_cons]
    · simp [report_loop, h, ih, List.filter_cons]

theorem report_loop_progress_eq (dbf : List PyStr) (total : Nat) :
    ∀ (fs : List PyStr) (i : Nat) (st : LoopState),
      (report_loop dbf total i fs st).progress =
        st.progress ++ (List.range fs.length).map
          (fun j => ProgressCall.mk (i + j + 1) total 50) := by
  intro fs
  induction fs with
  | nil => intro i st; simp [report_loop]
  | cons f rest ih =>
    intro i st
    have hshift : ∀ g : Nat → ProgressCall,
        (List.range (rest.length + 1)).map g =
          g 0 :: (List.range rest.length).map (fun j => g (j + 1)) := by
      intro g
      rw [List.range_succ_eq_map, List.map_cons, List.map_map]
      rfl
    have harith : (fun j => ProgressCall.mk (i + (j + 1) + 1) total 50) =
        (fun j => ProgressCall.mk (i + 1 + j + 1) total 50) := by
      funext j
      congr 1
      omega
    by_cases h : f ∈ dbf
    · simp [report_loop, h, ih, hshift, harith]
    · simp [report_loop, h, ih, hshift, harith]

theorem report_loop_tests_eq (dbf : List PyStr) (total : Nat) :
    ∀ (fs : List PyStr) (i : Nat) (st : LoopState),
      (report_loop dbf total i fs st).membership_tests =
        st.membership_tests + fs.length := by
  intro fs
  induction fs with
  | nil => intro i st; simp [report_loop]
  | cons f rest ih =>
    intro i st
    by_cases h : f ∈ dbf
    · simp [report_loop, h, ih]; omega
    · simp [report_loop, h, ih]; omega

theorem report_loop_noprogress_known_eq (dbf : List PyStr) :
    ∀ (fs : List PyStr) (st : NPState),
      (report_loop_noprogress dbf fs st).known_fusions =
        st.known_fusions ++ fs.filter (fun f => decide (f ∈ dbf)) := by
  intro fs
  induction fs with
  | nil => intro st; simp [report_loop_noprogress]
  | cons f rest ih =>
    intro st
    by_cases h : f ∈ dbf
    · simp [report_loop_noprogress, h, ih, List.filter_cons]
    · simp [report_loop_noprogress, h, ih, List.filter_cons]

theorem report_loop_noprogress_unknown_eq (dbf : List PyStr) :
    ∀ (fs : List PyStr) (st : NPState),
      (report_loop_noprogress dbf fs st).unknown_fusions =
        st.unknown_fusions ++ fs.filter (fun f => !decide (f ∈ dbf)) := by
  intro fs
  induction fs with
  | nil => intro st; simp [report_loop_noprogress]
  | cons f rest ih =>
    intro st
    by_cases h : f ∈ dbf
    · simp [report_loop_noprogress, h, ih, List.filter_cons]
    · simp [report_loop_noprogress, h, ih, List.filter_cons]

theorem report_loop_noprogress_pages_eq (dbf : List PyStr) :
    ∀ (fs : List PyStr) (st : NPState),
      (report_loop_noprogress dbf fs st).pages =
        st.pages ++ (fs.filter (fun f => decide (f ∈ dbf))).map
          (fun f => RPage.fusion (generate_fusion_page f)) := by
  intro fs
  induction fs with
  | nil => intro st; simp [report_loop_noprogress]
  | cons f rest ih =>
    intro st
    by_cases h : f ∈ dbf
    · simp [report_loop_noprogress, h, ih, List.filter_cons]
    · simp [report_loop_noprogress, h, ih, List.filter_cons]

/-! ### Lemmas about the split and the maximum observed count -/

theorem splitDD_ne_nil : ∀ s : List Char, splitDD s ≠ [] := by
  intro s
  induction s using twoStepInduction with
  | h0 => simp [splitDD]
  | h1 c => simp [splitDD]
  | h2 c1 c2 rest ih1 ih2 =>
    simp only [splitDD]
    split
    · simp
    · cases hsp : splitDD (c2 :: rest) with
      | nil => simp
      | cons p ps => simp [hsp]

theorem splitDD_length : ∀ s : List Char, (splitDD s).length = countDD s + 1 := by
  intro s
  induction s using twoStepInduction with
  | h0 => simp [splitDD, countDD]
  | h1 c => simp [splitDD, countDD]
  | h2 c1 c2 rest ih1 ih2 =>
    simp only [splitDD, countDD]
    split
    · simp [ih1]
    · cases hsp : splitDD (c2 :: rest) with
      | nil => exact absurd hsp (splitDD_ne_nil _)
      | cons p ps =>
        rw [hsp] at ih2
        simp at ih2 ⊢
        omega

theorem mem_le_max_observed_count (counts : PyStr → Nat) :
    ∀ (fusions : List PyStr) (f : PyStr), f ∈ fusions →
      counts f ≤ max_observed_count fusions counts := by
  intro fusions
  induction fusions with
  | nil => intro f hf; simp at hf
  | cons g rest ih =>
    intro f hf
    rcases List.mem_cons.mp hf with h | h
    · subst h; simp [max_observed_count]
    · calc counts f ≤ max_observed_count rest counts := ih f h
        _ ≤ max_observed_count (g :: rest) counts := by
            simp [max_observed_count]

/-! ### Claim theorems -/

/-- Claim C1: the classification pass partitions the parsed fusion list
exactly — the concatenation of `known_fusions` and `unknown_fusions` is a
permutation of the full identity list (every identity lands in exactly one
list, with multiplicity), and the two lists are disjoint. -/
theorem c1_classification_partitions (refRows : List GeneRef) (fusions : List PyStr)
    (counts : PyStr → Nat) (tool_num : Int) :
    ((generate_report (.ok refRows) fusions counts tool_num).known_fusions ++
      (generate_report (.ok refRows) fusions counts tool_num).unknown_fusions).Perm fusions ∧
    ((generate_report (.ok refRows) fusions counts tool_num).known_fusions.Disjoint
      (generate_report (.ok refRows) fusions counts tool_num).unknown_fusions) := by
  have hk : (generate_report (.ok refRows) fusions counts tool_num).known_fusions =
      fusions.filter (fun f => decide (f ∈ db_fusions refRows)) := by
    simp [generate_report, report_loop_known_eq]
  have hu : (generate_report (.ok refRows) fusions counts tool_num).unknown_fusions =
      fusions.filter (fun f => !decide (f ∈ db_fusions refRows)) := by
    simp [generate_report, report_loop_unknown_eq]
  constructor
  · rw [hk, hu]
    exact List.filter_append_perm _ fusions
  · rw [hk, hu]
    intro a ha hb
    have h1 := (List.mem_filter.mp ha).2
    have h2 := (List.mem_filter.mp hb).2
    rw [h1] at h2
    simp at h2

/-- Claim C5: if the reference-store query raises, the error propagates out
of `generate_report` with nothing classified — `known_fusions` and
`unknown_fusions` stay empty, no fusion page is added, no index page is
emitted, no progress is reported, and the run's outcome is that error. -/
theorem c5_error_no_partial_report (e : PyStr) (fusions : List PyStr)
    (counts : PyStr → Nat) (tool_num : Int) :
    (generate_report (.error e) fusions counts tool_num).known_fusions = [] ∧
    (generate_report (.error e) fusions counts tool_num).unknown_fusions = [] ∧
    (generate_report (.error e) fusions counts tool_num).pages = [] ∧
    (generate_report (.error e) fusions counts tool_num).progress = [] ∧
    (generate_report (.error e) fusions counts tool_num).outcome = .error e :=
  ⟨rfl, rfl, rfl, rfl, rfl⟩

/-- Claim C6 counterexample: on a run with two fusion identities the
reference store is queried once in total (a single `SELECT DISTINCT` before
the loop), not once per identity as the claim states. -/
theorem c6_counterexample :
    ([['A'], ['B']] : List PyStr).length = 2 ∧
    (generate_report (.ok []) [['A'], ['B']] (fun _ => 1) 2).ref_lookup_calls = 1 ∧
    ¬((generate_report (.ok []) [['A'], ['B']] (fun _ => 1) 2).ref_lookup_calls =
      ([['A'], ['B']] : List PyStr).length) := by
  decide

/-- Claim C6 amended: the external reference store is queried exactly once
per run (one bulk `SELECT DISTINCT` before the loop), and each fusion
identity is then tested once against the in-memory result list — exactly
one membership test per identity. -/
theorem c6_amended_single_bulk_query (refRows : List GeneRef) (fusions : List PyStr)
    (counts : PyStr → Nat) (tool_num : Int) :
    (generate_report (.ok refRows) fusions counts tool_num).ref_lookup_calls = 1 ∧
    (generate_report (.ok refRows) fusions counts tool_num).membership_tests =
      fusions.length := by
  constructor
  · rfl
  · simp [generate_report, report_loop_tests_eq]

/-- Claim C8: when the `tool_num` argument is absent, the value flowing into
the index page and into the fusion-table filtering is exactly the
module-level constant `TOOL_DETECTION_CUTOFF = 2`. -/
theorem c8_default_tool_num (fusions : List PyStr) (counts : PyStr → Nat)
    (known_fusions unknown_fusions : List PyStr) :
    parse_tool_num none = TOOL_DETECTION_CUTOFF ∧
    TOOL_DETECTION_CUTOFF = 2 ∧
    (generate_index fusions counts known_fusions unknown_fusions
      (parse_tool_num none)).tool_num = 2 ∧
    (generate_index fusions counts known_fusions unknown_fusions
      (parse_tool_num none)).fusions_table =
      create_fusions_table fusions counts known_fusions 2 :=
  ⟨rfl, rfl, rfl, rfl⟩

/-- Claim C10: `generate_fusion_page` splits the identity on `"--"` and the
resulting query-parameter list has length 2 exactly when the identity
contains exactly one `"--"` separator; with zero or more than one
occurrence the parameter list is not of length 2. -/
theorem c10_split_well_formed (fusion : PyStr) :
    (generate_fusion_page fusion).fusion_pair.length = 2 ↔ countDD fusion = 1 := by
  simp [generate_fusion_page, splitDD_length]

/-- Claim C2: a dedicated fusion page is added to the report exactly for the
identities classified known; an identity classified unknown gets no page of
its own. -/
theorem c2_page_iff_known (refRows : List GeneRef) (fusions : List PyStr)
    (counts : PyStr → Nat) (tool_num : Int) (f : PyStr) (hf : f ∈ fusions) :
    ((∃ p : FusionPage,
        RPage.fusion p ∈ (generate_report (.ok refRows) fusions counts tool_num).pages ∧
        p.title = f) ↔
      f ∈ (generate_report (.ok refRows) fusions counts tool_num).known_fusions) ∧
    (f ∈ (generate_report (.ok refRows) fusions counts tool_num).unknown_fusions →
      ¬∃ p : FusionPage,
        RPage.fusion p ∈ (generate_report (.ok refRows) fusions counts tool_num).pages ∧
        p.title = f) := by
  have hk : (generate_report (.ok refRows) fusions counts tool_num).known_fusions =
      fusions.filter (fun g => decide (g ∈ db_fusions refRows)) := by
    simp [generate_report, report_loop_known_eq]
  have hu : (generate_report (.ok refRows) fusions counts tool_num).unknown_fusions =
      fusions.filter (fun g => !decide (g ∈ db_fusions refRows)) := by
    simp [generate_report, report_loop_unknown_eq]
  have hpages : (generate_report (.ok refRows) fusions counts tool_num).pages =
      (fusions.filter (fun g => decide (g ∈ db_fusions refRows))).map
        (fun g => RPage.fusion (generate_fusion_page g)) ++
      [RPage.index (generate_index fusions counts
        (fusions.filter (fun g => decide (g ∈ db_fusions refRows)))
        (fusions.filter (fun g => !decide (g ∈ db_fusions refRows))) tool_num)] := by
    simp [generate_report, report_loop_pages_eq, report_loop_known_eq,
      report_loop_unknown_eq]
  have hiff : (∃ p : FusionPage,
      RPage.fusion p ∈ (generate_report (.ok refRows) fusions counts tool_num).pages ∧
      p.title = f) ↔
      f ∈ (generate_report (.ok refRows) fusions counts tool_num).known_fusions := by
    constructor
    · rintro ⟨p, hmem, ht⟩
      rw [hpages] at hmem
      rw [hk]
      rcases List.mem_append.mp hmem with hm | hm
      · rcases List.mem_map.mp hm with ⟨g, hg, heq⟩
        injection heq with hpg
        have hgf : g = f := by rw [← hpg] at ht; exact ht
        rwa [← hgf]
      · simp at hm
    · intro hkn
      refine ⟨generate_fusion_page f, ?_, rfl⟩
      rw [hpages]
      apply List.mem_append_left
      exact List.mem_map.mpr ⟨f, by rwa [hk] at hkn, rfl⟩
  refine ⟨hiff, ?_⟩
  intro hun hex
  have hkn := hiff.mp hex
  rw [hk] at hkn
  rw [hu] at hun
  have h1 := (List.mem_filter.mp hkn).2
  have h2 := (List.mem_filter.mp hun).2
  rw [h1] at h2
  simp at h2

/-- Claim C2 witness: in the spec §8 scenario the known identity
`ABC--XYZ` is classified known, concluded from its page being in the report. -/
theorem c2_page_iff_known_witness :
    (['A','B','C','-','-','X','Y','Z'] : PyStr) ∈
      (generate_report (.ok [⟨['A','B','C'], ['X','Y','Z']⟩])
        [['A','B','C','-','-','X','Y','Z'], ['D','E','F','-','-','U','V','W']]
        (fun _ => 1) 2).known_fusions :=
  ((c2_page_iff_known [⟨['A','B','C'], ['X','Y','Z']⟩]
    [['A','B','C','-','-','X','Y','Z'], ['D','E','F','-','-','U','V','W']]
    (fun _ => 1) 2 ['A','B','C','-','-','X','Y','Z'] (by decide)).1).mp
    ⟨generate_fusion_page ['A','B','C','-','-','X','Y','Z'], by decide, rfl⟩

/-- Claim C3: when the minimum tool count exceeds the maximum observed
detection count, the fusion-table filter degrades to no filtering — it
returns the full unfiltered identity list, while a plain threshold filter
would have returned the empty list. -/
theorem c3_filter_degrades (fusions : List PyStr) (counts : PyStr → Nat)
    (known_fusions : List PyStr) (tool_num : Int)
    (h : (max_observed_count fusions counts : Int) < tool_num) :
    create_fusions_table fusions counts known_fusions tool_num = fusions ∧
    fusions.filter (fun f => decide (tool_num ≤ (counts f : Int))) = [] := by
  constructor
  · simp only [create_fusions_table, if_pos h]
  · rw [List.filter_eq_nil_iff]
    intro f hf
    have hle := mem_le_max_observed_count counts fusions f hf
    simp only [decide_eq_true_eq]
    omega

/-- Claim C3 witness: with a single fusion detected by 1 tool and a cutoff
of 5, the filter returns the unfiltered list. -/
theorem c3_filter_degrades_witness :
    create_fusions_table [['A']] (fun _ => 1) [] 5 = [['A']] :=
  (c3_filter_degrades [['A']] (fun _ => 1) [] 5 (by decide)).1

/-- Claim C4: classification is order-sensitive on the gene pair — an
identity `A--B` is classified known exactly when the reference rows contain
it serialized in that head/tail orientation; even when the reversed pair
`(B, A)` is a reference row, if the exact orientation is absent the
identity lands in the unknown list, never being normalized by sorting. -/
theorem c4_orientation_sensitive (refRows : List GeneRef) (fusions : List PyStr)
    (A B : PyStr) (counts : PyStr → Nat) (tool_num : Int)
    (hf : fusionPairString A B ∈ fusions)
    (hrev : GeneRef.mk B A ∈ refRows)
    (hne : fusionPairString A B ∉ refRows.map fun r => fusionPairString r.h_gene r.t_gene) :
    (fusionPairString A B ∈
        (generate_report (.ok refRows) fusions counts tool_num).known_fusions ↔
      fusionPairString A B ∈ refRows.map fun r => fusionPairString r.h_gene r.t_gene) ∧
    fusionPairString A B ∉
      (generate_report (.ok refRows) fusions counts tool_num).known_fusions ∧
    fusionPairString A B ∈
      (generate_report (.ok refRows) fusions counts tool_num).unknown_fusions := by
  have hk : (generate_report (.ok refRows) fusions counts tool_num).known_fusions =
      fusions.filter (fun g => decide (g ∈ db_fusions refRows)) := by
    simp [generate_report, report_loop_known_eq]
  have hu : (generate_report (.ok refRows) fusions counts tool_num).unknown_fusions =
      fusions.filter (fun g => !decide (g ∈ db_fusions refRows)) := by
    simp [generate_report, report_loop_unknown_eq]
  have h1 : fusionPairString A B ∈
      (generate_report (.ok refRows) fusions counts tool_num).known_fusions ↔
      fusionPairString A B ∈ refRows.map fun r => fusionPairString r.h_gene r.t_gene := by
    rw [hk]
    simp only [List.mem_filter, decide_eq_true_eq, db_fusions, List.mem_dedup]
    exact ⟨fun hp => hp.2, fun hp => ⟨hf, hp⟩⟩
  refine ⟨h1, fun hmem => hne (h1.mp hmem), ?_⟩
  rw [hu]
  refine List.mem_filter.mpr ⟨hf, ?_⟩
  simp only [db_fusions, List.mem_dedup, Bool.not_eq_true', decide_eq_false_iff_not]
  exact hne

/-- Claim C4 witness: with only the reversed pair `XYZ--ABC` in the
reference rows, the identity `ABC--XYZ` is classified unknown. -/
theorem c4_orientation_sensitive_witness :
    fusionPairString ['A','B','C'] ['X','Y','Z'] ∈
      (generate_report (.ok [⟨['X','Y','Z'], ['A','B','C']⟩])
        [['A','B','C','-','-','X','Y','Z']] (fun _ => 1) 2).unknown_fusions :=
  (c4_orientation_sensitive [⟨['X','Y','Z'], ['A','B','C']⟩]
    [['A','B','C','-','-','X','Y','Z']] ['A','B','C'] ['X','Y','Z']
    (fun _ => 1) 2 (by decide) (by decide) (by decide)).2.2

/-- Claim C7: progress reporting is a pure frame effect — the classification
lists and the pages of a run equal those of the progress-free variant, and
the progress bar is called exactly `n + 1` times: with current index `0`
before the loop and with current index `i + 1` after each of the `n`
fusions, on both branches. -/
theorem c7_progress_frame (refRows : List GeneRef) (fusions : List PyStr)
    (counts : PyStr → Nat) (tool_num : Int) :
    (generate_report (.ok refRows) fusions counts tool_num).known_fusions =
      (generate_report_noprogress (.ok refRows) fusions counts tool_num).known_fusions ∧
    (generate_report (.ok refRows) fusions counts tool_num).unknown_fusions =
      (generate_report_noprogress (.ok refRows) fusions counts tool_num).unknown_fusions ∧
    (generate_report (.ok refRows) fusions counts tool_num).pages =
      (generate_report_noprogress (.ok refRows) fusions counts tool_num).pages ∧
    (generate_report (.ok refRows) fusions counts tool_num).progress =
      (List.range (fusions.length + 1)).map
        (fun j => ProgressCall.mk j fusions.length 50) ∧
    (generate_report (.ok refRows) fusions counts tool_num).progress.length =
      fusions.length + 1 := by
  have hprog : (generate_report (.ok refRows) fusions counts tool_num).progress =
      ProgressCall.mk 0 fusions.length 50 ::
        (List.range fusions.length).map
          (fun j => ProgressCall.mk (0 + j + 1) fusions.length 50) := by
    simp [generate_report, report_loop_progress_eq]
  have hshift : (List.range (fusions.length + 1)).map
      (fun j => ProgressCall.mk j fusions.length 50) =
      ProgressCall.mk 0 fusions.length 50 ::
        (List.range fusions.length).map
          (fun j => ProgressCall.mk (j + 1) fusions.length 50) := by
    rw [List.range_succ_eq_map, List.map_cons, List.map_map]
    rfl
  refine ⟨?_, ?_, ?_, ?_, ?_⟩
  · simp [generate_report, generate_report_noprogress, report_loop_known_eq,
      report_loop_noprogress_known_eq]
  · simp [generate_report, generate_report_noprogress, report_loop_unknown_eq,
      report_loop_noprogress_unknown_eq]
  · simp [generate_report, generate_report_noprogress, report_loop_pages_eq,
      report_loop_noprogress_pages_eq, report_loop_known_eq,
      report_loop_noprogress_known_eq, report_loop_unknown_eq,
      report_loop_noprogress_unknown_eq]
  · rw [hprog, hshift]
    simp
  · rw [hprog]
    simp

/-- Claim C9: classification preserves input order and multiplicity —
`known_fusions` is exactly the subsequence of the parsed list whose
elements are in the serialized reference set (`List.filter` keeps relative
order and multiplicity), `unknown_fusions` is the complementary
subsequence, and the `fusions_sum` of the index page in the report equals
the length of the parsed fusion list. -/
theorem c9_order_and_sum (refRows : List GeneRef) (fusions : List PyStr)
    (counts : PyStr → Nat) (tool_num : Int) :
    (generate_report (.ok refRows) fusions counts tool_num).known_fusions =
      fusions.filter (fun f => decide (f ∈ db_fusions refRows)) ∧
    (generate_report (.ok refRows) fusions counts tool_num).unknown_fusions =
      fusions.filter (fun f => !decide (f ∈ db_fusions refRows)) ∧
    ∀ ip : IndexPage,
      RPage.index ip ∈ (generate_report (.ok refRows) fusions counts tool_num).pages →
      ip.fusions_sum = fusions.length := by
  have hk : (generate_report (.ok refRows) fusions counts tool_num).known_fusions =
      fusions.filter (fun f => decide (f ∈ db_fusions refRows)) := by
    simp [generate_report, report_loop_known_eq]
  have hu : (generate_report (.ok refRows) fusions counts tool_num).unknown_fusions =
      fusions.filter (fun f => !decide (f ∈ db_fusions refRows)) := by
    simp [generate_report, report_loop_unknown_eq]
  have hpages : (generate_report (.ok refRows) fusions counts tool_num).pages =
      (fusions.filter (fun g => decide (g ∈ db_fusions refRows))).map
        (fun g => RPage.fusion (generate_fusion_page g)) ++
      [RPage.index (generate_index fusions counts
        (fusions.filter (fun g => decide (g ∈ db_fusions refRows)))
        (fusions.filter (fun g => !decide (g ∈ db_fusions refRows))) tool_num)] := by
    simp [generate_report, report_loop_pages_eq, report_loop_known_eq,
      report_loop_unknown_eq]
  refine ⟨hk, hu, ?_⟩
  intro ip hmem
  rw [hpages] at hmem
  rcases List.mem_append.mp hmem with hm | hm
  · rcases List.mem_map.mp hm with ⟨g, _, heq⟩
    simp at heq
  · simp only [List.mem_singleton] at hm
    injection hm with hip
    rw [hip]
    have hlen := (List.filter_append_perm
      (fun f => decide (f ∈ db_fusions refRows)) fusions).length_eq
    rw [List.length_append] at hlen
    simp [generate_index]
    omega

/-- Claim C9 witness: in the spec §8 scenario the index page present in the
report has `fusions_sum` equal to the number of parsed fusions. -/
theorem c9_order_and_sum_witness :
    (generate_index
      [['A','B','C','-','-','X','Y','Z'], ['D','E','F','-','-','U','V','W']]
      (fun _ => 1)
      [['A','B','C','-','-','X','Y','Z']]
      [['D','E','F','-','-','U','V','W']] 2).fusions_sum = 2 :=
  (c9_order_and_sum [⟨['A','B','C'], ['X','Y','Z']⟩]
    [['A','B','C','-','-','X','Y','Z'], ['D','E','F','-','-','U','V','W']]
    (fun _ => 1) 2).2.2
    (generate_index
      [['A','B','C','-','-','X','Y','Z'], ['D','E','F','-','-','U','V','W']]
      (fun _ => 1)
      [['A','B','C','-','-','X','Y','Z']]
      [['D','E','F','-','-','U','V','W']] 2)
    (by decide)

end FusionReport
